import Mathlib

/-!
# Verification of the folder_monitoring preview pipeline

A shallow embedding of the core of the `folder_monitoring` repository:
the preview generator (`src/image/image.py`), the database operations
(`src/database/db_operations.py`) and the polling watcher
(`src/monitor/monitor.py`).  Pure computations (path mangling, resize
arithmetic, decode-strategy dispatch) are translated directly; the
external collaborators (PIL / tifffile / psd_tools decoding, the
relational store, `os.path`) are modelled as explicit environments and
state records, exactly as the spec treats them (capability providers and
a CRUD service).  Python float arithmetic in the resize computations is
modelled as exact arithmetic: the `int(...)` of each scaled dimension
becomes a floored natural-number division.
-/

set_option autoImplicit false

namespace FolderMonitoring

/-! ## Python string primitives

CPython semantics of the string operations used by
`image.py::preview` lines 169-174, modelled over `List Char`.
-/

/-- CPython `str.replace(pat, repl)` for a nonempty pattern: scan left to
right, replacing non-overlapping occurrences.  Implemented with a fuel
argument (the length of the scanned list) so that the definition is
structurally recursive and kernel-reducible; each scanning step consumes
at least one character, so the fuel never runs out on the actual
argument (for an empty pattern CPython interleaves `repl` everywhere;
the repository only ever replaces a nonempty folder prefix, and the
fuel-exhausted branch returns the remaining input unchanged). -/
def pyReplaceFuel (pat repl : List Char) : Nat → List Char → List Char
  | 0, s => s
  | _ + 1, [] => []
  | fuel + 1, c :: cs =>
    if pat ≠ [] ∧ pat.isPrefixOf (c :: cs) then
      repl ++ pyReplaceFuel pat repl fuel ((c :: cs).drop pat.length)
    else
      c :: pyReplaceFuel pat repl fuel cs

/-- CPython `s.replace(pat, repl)` (nonempty `pat`). -/
def pyReplace (s pat repl : List Char) : List Char :=
  pyReplaceFuel pat repl s.length s

/-- CPython `str.split(sep)` for a one-character separator: splits at every
occurrence, keeping empty parts, always returning a nonempty list. -/
def pySplit (sep : Char) : List Char → List (List Char)
  | [] => [[]]
  | c :: cs =>
    match pySplit sep cs with
    | [] => [[c]]
    | p :: ps => if c = sep then [] :: p :: ps else (c :: p) :: ps

/-- CPython `s.replace('\\', '/')`: a one-character pattern, so a plain map. -/
def replaceBackslash (s : List Char) : List Char :=
  s.map fun c => if c = '\\' then '/' else c

/-- The suffix of `s` after its last occurrence of `sep` (all of `s` if
`sep` does not occur).  Used to state what `pySplit`'s last element is. -/
def lastSeg (sep : Char) : List Char → List Char
  | [] => []
  | c :: cs => if c = sep ∨ sep ∈ cs then lastSeg sep cs else c :: cs

/-! ## Raster model -/

/-- A canonical raster: the dimensions and color mode of an in-memory
image (PIL `Image` / numpy array).  Pixel payloads play no role in any
claim, so they are not carried. -/
structure Img where
  width : Nat
  height : Nat
  mode : String
deriving DecidableEq, Repr

/-- The outcome of `PIL.Image.open` on a TIFF as far as
`image.py::is_complex_tiff` observes it: whether opening succeeds and
whether `'icc_profile'` is among the info keys. -/
structure PilInfo where
  openOk : Bool
  hasIccProfile : Bool
deriving DecidableEq, Repr

/-- `image.py::is_complex_tiff` lines 46-55: open the image and report
whether an ICC profile is present; any exception is caught and the
function returns `False` by default. -/
def is_complex_tiff (f : PilInfo) : Bool :=
  f.openOk && f.hasIccProfile

/-- The shape/dtype view of `tifffile.TiffFile.asarray()` needed by
`image.py::convert_tiff_to_image`. -/
structure TiffArr where
  ndim : Nat
  h : Nat
  w : Nat
  channels : Nat
  dtypeUint8 : Bool
deriving DecidableEq, Repr

/-- `image.py::convert_tiff_to_image` lines 58-77: keep only the first
three channels of a multi-channel (ndim = 3, > 3 channels) array, then
coerce the dtype to uint8 if it is anything else. -/
def convert_tiff_to_image (a : TiffArr) : TiffArr :=
  let a1 := if a.ndim = 3 ∧ a.channels > 3 then { a with channels := 3 } else a
  if a1.dtypeUint8 = false then { a1 with dtypeUint8 := true } else a1

/-- `PIL.Image.fromarray` on the array produced by
`convert_tiff_to_image`: a 3-channel uint8 array decodes as RGB, a
2-dimensional one as grayscale. -/
def tiffArrImg (a : TiffArr) : Img :=
  ⟨a.w, a.h, if a.ndim = 3 then "RGB" else "L"⟩

/-! ## Resize arithmetic -/

/-- `image.py::resize_image` lines 98-110 (the cv2 path used for complex
TIFFs): if the WIDTH is within `max_width` the image is returned
unchanged (the height is never inspected); otherwise the width becomes
`max_width` and the height is scaled by the ratio `max_width / width`.
`int(height * (max_width / width))` in exact arithmetic is the floor of
`height * max_width / width`, i.e. the natural-number division below
(the source divides positive machine floats; the model is exact). -/
def resize_image (image : Img) (max_width : Nat) : Img :=
  if image.width ≤ max_width then image
  else
    ⟨max_width, image.height * max_width / image.width, image.mode⟩

/-- `image.py::save_image_as_jpeg` lines 113-119: resize to the pixel
limit taken as a maximum width, then `cv2.imwrite` as JPEG (the write is
recorded by the caller; only the written raster matters here). -/
def save_image_as_jpeg (image : Img) (pixel_limit : Nat) : Img :=
  resize_image image pixel_limit

/-- The in-`preview` resize, `image.py` lines 183-189 (the generic
path): if either dimension exceeds `max_dimension`, scale both
dimensions by `ratio = min(max_dimension / width, max_dimension /
height)` and take `int(...)` of each product.  For positive dimensions
the minimum of the two exact ratios is `max_dimension / max(width,
height)`, and flooring `d * ratio` is the natural-number division by
`max(width, height)` below (the source divides positive machine floats;
the model is exact). -/
def previewResize (img : Img) (max_dimension : Nat) : Img :=
  if img.width > max_dimension ∨ img.height > max_dimension then
    let m := max img.width img.height
    ⟨img.width * max_dimension / m, img.height * max_dimension / m, img.mode⟩
  else img

/-- The color modes that the generic path of `preview` converts to RGB
(`image.py` line 179). -/
def convertModes : List String := ["CMYK", "RGBA", "LA", "P"]

/-- The raster actually written to the output path by `preview`
(lines 176-192): the complex-TIFF branch goes through
`save_image_as_jpeg`; the generic branch first converts the non-RGB
modes to RGB, then applies the bounded resize, then encodes as JPEG. -/
def renderedImage (complex_tiff : Bool) (pixel_limit : Nat) (img : Img) : Img :=
  if complex_tiff then save_image_as_jpeg img pixel_limit
  else
    let img1 := if img.mode ∈ convertModes then { img with mode := "RGB" } else img
    previewResize img1 pixel_limit

/-! ## Database and process state

The relational store of `db_operations.py`: tables `graphs`
(directories), `graphs_children` (preview artifacts) and `logs_script`
(error log), each row list in insertion order.  `uuid.uuid4()` is
modelled by a fresh-identifier counter carried in the state; writes of
preview files to disk are recorded as an append-only list of
(output path, written raster) events.  Each fallible store operation
takes an explicit flag saying whether its query raises (the exception
branches of the source). -/

/-- One `graphs_children` row:
`(id, graph_id, preview, original, size, name)`
(`db_operations.py::save_to_database` lines 90-101). -/
structure ChildRow where
  id : Nat
  graphId : Nat
  preview : Option String
  original : String
  size : Option String
  rowName : Option String
deriving DecidableEq, Repr

/-- One `graphs` row: `(id, name, path)`
(`db_operations.py::insert_new_directory` lines 155-157). -/
structure DirRow where
  id : Nat
  dirName : String
  path : String
deriving DecidableEq, Repr

/-- The three tables of the durable store. -/
structure DB where
  graphs : List DirRow
  graphs_children : List ChildRow
  logs_script : List (Nat × String)
deriving DecidableEq, Repr

/-- Process-visible state: the store, the preview files written to disk
(in write order, later writes of the same path rewrite the file), and
the fresh-identifier counter modelling `uuid.uuid4()`. -/
structure St where
  db : DB
  fsWrites : List (String × Img)
  nextId : Nat
deriving DecidableEq, Repr

/-- `db_operations.py::log_error_to_db` lines 32-52: insert
`(uuid4(), error_text)` into `logs_script`; on a database error the
insert is rolled back (`opFail`). -/
def log_error_to_db (st : St) (opFail : Bool) (error_text : String) : St :=
  if opFail then st
  else
    { st with
      db := { st.db with logs_script := st.db.logs_script ++ [(st.nextId, error_text)] }
      nextId := st.nextId + 1 }

/-- `db_operations.py::save_to_database` lines 55-111: with an error
argument, insert `(uuid4(), str(error))` into `logs_script`; otherwise
insert a new `graphs_children` row.  The unused legacy `dpi`,
`dimension` and `pixels` parameters of the source are omitted.  Database
errors are caught and logged locally, leaving the store unchanged
(`opFail`). -/
def save_to_database (st : St) (opFail : Bool) (original_filename : String)
    (preview_filename : Option String) (graph_id : Nat) (size : Option String)
    (entryName : Option String) (error : Option String) : St :=
  if opFail then st
  else
    let entry_id := st.nextId
    match error with
    | some err =>
        { st with
          db := { st.db with logs_script := st.db.logs_script ++ [(entry_id, err)] }
          nextId := st.nextId + 1 }
    | none =>
        { st with
          db := { st.db with
                  graphs_children := st.db.graphs_children ++
                    [⟨entry_id, graph_id, preview_filename, original_filename,
                      size, entryName⟩] }
          nextId := st.nextId + 1 }

/-- `db_operations.py::get_directory_id` lines 114-138: select the first
`graphs` row whose `path` matches and return its id, or `None` when
absent; a `DatabaseError` is caught, logged locally and to
`logs_script`, and the function falls through returning `None`. -/
def get_directory_id (st : St) (queryFail : Bool) (dir_relative_path : String) :
    Option Nat × St :=
  if queryFail then
    (none, log_error_to_db st false "Error retrieving directory ID from the database")
  else
    ((st.db.graphs.find? (fun r => r.path = dir_relative_path)).map (fun r => r.id), st)

/-- `db_operations.py::insert_new_directory` lines 141-168: insert a
`graphs` row; a `DatabaseError` is caught, logged locally and to
`logs_script`, and the insert rolled back. -/
def insert_new_directory (st : St) (opFail : Bool) (dir_id : Nat)
    (dir_name dir_relative_path : String) : St :=
  if opFail then
    log_error_to_db st false "Error registering directory in the database"
  else
    { st with
      db := { st.db with graphs := st.db.graphs ++ [⟨dir_id, dir_name, dir_relative_path⟩] } }

/-- `db_operations.py::is_file_registered` lines 171-194:
`SELECT 1 FROM graphs_children WHERE original = %s`, returning whether a
row was fetched; ANY exception is caught and the function returns
`False`. -/
def is_file_registered (db : DB) (queryFail : Bool) (file_path : String) : Bool :=
  if queryFail then false
  else (db.graphs_children.find? (fun r => r.original = file_path)).isSome

/-! ## The preview pipeline (`image.py::preview`, lines 122-214) -/

/-- The `os.path` collaborators used by `monitor.py` (normalisation,
relative path against the watched root `REPOSITORY`, basename,
dirname), modelled as an explicit capability record. -/
structure PathEnv where
  norm : String → String
  relToRepo : String → String
  base : String → String
  dirOf : String → String

/-- The decode / filesystem capability providers used by `preview`, per
source path: the PIL open used by `is_complex_tiff`, the four decoder
outcomes (`psd_tools`, the CMYK profile conversion, `tifffile.asarray`,
generic `Image.open`), whether the encode/write of a given output path
raises (with the exception text), and the `size_original_mb` string of
the original file. -/
structure DecodeEnv where
  pil : String → PilInfo
  psb : String → Except String Img
  cmyk : String → Except String Img
  tiffArr : String → Except String TiffArr
  generic : String → Except String Img
  renderFail : String → Option String
  sizeMb : String → Option String

/-- `arch.split('.')[-1].lower()` (`image.py` line 154). -/
def lowerExt (arch : String) : String :=
  ⟨((pySplit '.' arch.data).getLastD []).map Char.toLower⟩

/-- The base name computed by `image.py` lines 169-171:
`arch.replace(folder_path, '').replace('\\', '/').split('.')`, first
element, `split('/')`, last element. -/
def previewBaseChars (arch folder_path : List Char) : List Char :=
  let module := pySplit '.' (replaceBackslash (pyReplace arch folder_path []))
  let path := pySplit '/' (module.headD [])
  path.getLastD []

/-- String wrapper for `previewBaseChars`. -/
def previewName (arch folder_path : String) : String :=
  ⟨previewBaseChars arch.data folder_path.data⟩

/-- `image.py` line 174: `f'{folder_destiny}/{name}.jpeg'`. -/
def previewOutputPath (folder_destiny arch folder_path : String) : String :=
  folder_destiny ++ "/" ++ previewName arch folder_path ++ ".jpeg"

/-- The closed decode-strategy variants of the dispatch in
`image.py` lines 154-167. -/
inductive DecodeStrategy
  | psbDoc
  | complexTiff
  | simpleTiff
  | generic
deriving DecidableEq, Repr

/-- The pure classification underlying `image.py` lines 154-165:
`'psb'` to the layered-document decoder; `'tiff'`/`'tif'` to the
complex path when `is_complex_tiff` holds and the array reader
otherwise; anything else to the generic decoder. -/
def chooseStrategy (arch : String) (f : PilInfo) : DecodeStrategy :=
  let ext := lowerExt arch
  if ext = "psb" then .psbDoc
  else if ext = "tiff" ∨ ext = "tif" then
    if is_complex_tiff f then .complexTiff else .simpleTiff
  else .generic

/-- The decode stage of `preview` (`image.py` lines 151-167): returns
the `complex_tiff` flag together with the decoded raster or the raised
exception text. -/
def decodeStage (dec : DecodeEnv) (arch : String) : Bool × Except String Img :=
  let ext := lowerExt arch
  if ext = "psb" then (false, dec.psb arch)
  else if ext = "tiff" ∨ ext = "tif" then
    if is_complex_tiff (dec.pil arch) then (true, dec.cmyk arch)
    else (false, (dec.tiffArr arch).map (fun a => tiffArrImg (convert_tiff_to_image a)))
  else (false, dec.generic arch)

/-- `image.py::preview` lines 146-214: decode per strategy; derive the
output path; render and write the preview (any exception in the `try`
block reaches the handler at lines 211-214, which records
`str(e)` via `save_to_database`'s error branch); compute the original
size; then the dedup check `is_file_registered` — performed AFTER the
successful render and BEFORE the metadata insert — either ends the call
(row already present) or a new `graphs_children` row is inserted.
`regFail` is whether the dedup query raises. -/
def preview (dec : DecodeEnv) (pixel_limit : Nat) (regFail : Bool) (st : St)
    (arch folder_path folder_destiny : String) (graph_id : Nat) : St :=
  match decodeStage dec arch with
  | (_, .error e) => save_to_database st false arch none graph_id none none (some e)
  | (complex_tiff, .ok img) =>
      let output_path := previewOutputPath folder_destiny arch folder_path
      match dec.renderFail output_path with
      | some e => save_to_database st false arch none graph_id none none (some e)
      | none =>
          let written := renderedImage complex_tiff pixel_limit img
          let st1 := { st with fsWrites := st.fsWrites ++ [(output_path, written)] }
          let size_original_mb := dec.sizeMb arch
          if is_file_registered st1.db regFail arch then st1
          else
            save_to_database st1 false arch (some output_path) graph_id
              size_original_mb (some (previewName arch folder_path)) none

/-! ## The watcher (`monitor.py`) -/

/-- `monitor.py::ensure_directory_registered` lines 60-81: normalise the
absolute path, relativise it against `REPOSITORY`, look the relative
path up in `graphs`; when absent, generate a fresh id (`uuid.uuid4()`)
and insert a new row; return the identifier either way. -/
def ensure_directory_registered (pe : PathEnv) (getFail insFail : Bool) (st : St)
    (full_dir_path : String) : Nat × St :=
  let full := pe.norm full_dir_path
  let dir_relative_path := pe.relToRepo full
  match get_directory_id st getFail dir_relative_path with
  | (some dir_id, st1) => (dir_id, st1)
  | (none, st1) =>
      let dir_id := st1.nextId
      let st2 := { st1 with nextId := st1.nextId + 1 }
      (dir_id, insert_new_directory st2 insFail dir_id (pe.base full) dir_relative_path)

/-- `file.startswith('.')` — the hidden-file test of `monitor.py`
lines 96 and 134. -/
def hiddenFile (f : String) : Bool :=
  f.startsWith "."

/-- `os.path.join(root, file)` for a plain file name. -/
def ospJoin (root f : String) : String :=
  root ++ "/" ++ f

/-- Python dict assignment `d[k] = v` on an association list kept in
insertion order. -/
def setAssoc (d : List (String × Option Nat)) (k : String) (v : Option Nat) :
    List (String × Option Nat) :=
  if d.any (fun kv => kv.1 = k) then
    d.map (fun kv => if kv.1 = k then (k, v) else kv)
  else d ++ [(k, v)]

/-- Python `d[k]` / `k in d` on an association list. -/
def lookupAssoc (d : List (String × Option Nat)) (k : String) :
    Option (Option Nat) :=
  (d.find? (fun kv => kv.1 = k)).map (fun kv => kv.2)

/-- One `os.walk` observation: (normalised root, file name, `getmtime`
result — `none` models the `FileNotFoundError` branch). -/
abbrev WalkFile := String × String × Option Nat

/-- The baseline seeding walk of `monitor.py` lines 91-103 (entered only
when not forcing a resync): record the modification time of every
non-hidden file; hidden files are skipped. -/
def monitorBaseline (walk : List WalkFile) : List (String × Option Nat) :=
  walk.foldl
    (fun d e =>
      if hiddenFile e.2.1 then d
      else setAssoc d (ospJoin e.1 e.2.1) e.2.2)
    []

/-- The per-pass change detection of `monitor.py` lines 133-143: a
non-hidden file is emitted into `updated_files` when its path is not in
`files_dict` or its recorded modification time differs; hidden files
are skipped before the comparison. -/
def monitorUpdated (files_dict : List (String × Option Nat))
    (walk : List WalkFile) : List (String × Option Nat) :=
  walk.foldl
    (fun u e =>
      if hiddenFile e.2.1 then u
      else
        let file_path := ospJoin e.1 e.2.1
        match lookupAssoc files_dict file_path with
        | none => setAssoc u file_path e.2.2
        | some prev => if prev ≠ e.2.2 then setAssoc u file_path e.2.2 else u)
    []

/-- The destination path computed at `monitor.py` lines 150-157:
`os.path.join(DESTINATION, os.path.dirname(relpath(file_path, root)))`
(normalised). -/
def passDestination (pe : PathEnv) (destination file_path : String) : String :=
  pe.norm (ospJoin destination (pe.dirOf (pe.norm (pe.relToRepo file_path))))

/-- The body of the per-file loop of `monitor.py` lines 147-172:
resolve the destination path, ensure the parent directory is
registered, and call `preview`.  `preview`'s own handler absorbs
decode/render failures, and the `except` at lines 168-172 keeps any
remaining per-file failure from escaping, so the step is a total
function of the state. -/
def monitorStep (dec : DecodeEnv) (pe : PathEnv) (pixel_limit : Nat)
    (regFail : Bool) (destination folder_path : String) (s : St)
    (file_path : String) : St :=
  let destination_path := passDestination pe destination file_path
  let full_dir_path := pe.norm (pe.dirOf file_path)
  let p := ensure_directory_registered pe false false s full_dir_path
  preview dec pixel_limit regFail p.2 file_path folder_path destination_path p.1

/-- The per-pass processing loop of `monitor.py` lines 145-174: every
updated file of the pass is attempted, in order. -/
def monitorProcess (dec : DecodeEnv) (pe : PathEnv) (pixel_limit : Nat)
    (regFail : Bool) (destination folder_path : String) (st : St)
    (files : List String) : St :=
  files.foldl (monitorStep dec pe pixel_limit regFail destination folder_path) st

/-! ## Concrete sample data for instantiating the theorems -/

/-- A concrete decode environment: every path decodes generically to a
400×300 RGBA raster, except `/w/bad.png`, whose decode raises with
message `boom`; TIFF paths carry no ICC profile; renders never fail. -/
def sampleEnv : DecodeEnv where
  pil := fun _ => ⟨true, false⟩
  psb := fun _ => Except.error "psb decoder unavailable"
  cmyk := fun _ => Except.ok ⟨100, 2000, "CMYK"⟩
  tiffArr := fun _ => Except.ok ⟨3, 10, 20, 5, false⟩
  generic := fun p =>
    if p = "/w/bad.png" then Except.error "boom" else Except.ok ⟨400, 300, "RGBA"⟩
  renderFail := fun _ => none
  sizeMb := fun _ => some "1.00"

/-- A concrete `os.path` environment whose functions are all the
identity (paths in the samples are already normalised and relative). -/
def samplePathEnv : PathEnv where
  norm := fun s => s
  relToRepo := fun s => s
  base := fun s => s
  dirOf := fun s => s

/-- The empty process state. -/
def emptySt : St :=
  ⟨⟨[], [], []⟩, [], 0⟩

/-! ## Claim-side definitions

Definitions that follow the words of the specification (not the
source), for the refinement-style claims that compare the two. -/

/-- The suffix of `s` from its last `'.'` removed — "stripping the
extension" in the ordinary sense used by the spec (`s` unchanged when it
has no dot). -/
def stripExtChars (s : List Char) : List Char :=
  if '.' ∈ s then ((s.reverse.dropWhile (fun c => c ≠ '.')).drop 1).reverse
  else s

/-- The base name as the spec's output-path derivation rule words it
(§4.4): take the file path relative to the watched root, strip the
extension, replace OS path separators with forward slashes, and take the
final path segment. -/
def specBaseName (arch folder_path : String) : String :=
  ⟨lastSeg '/' (replaceBackslash (stripExtChars (pyReplace arch.data folder_path.data [])))⟩

/-- The spec's output path: `{destination_folder}/{base_name}.jpeg`. -/
def specOutputPath (folder_destiny arch folder_path : String) : String :=
  folder_destiny ++ "/" ++ specBaseName arch folder_path ++ ".jpeg"

/-- The prefix of `s` before the first occurrence of `sep` (all of `s`
when `sep` does not occur): with `sep = '.'` this is what the source
actually keeps of the relative path before taking the final segment. -/
def takeUntil (sep : Char) : List Char → List Char
  | [] => []
  | c :: cs => if c = sep then [] else c :: takeUntil sep cs

/-! ## Helper lemmas on the split primitives -/

theorem pySplit_ne_nil (sep : Char) (s : List Char) : pySplit sep s ≠ [] := by
  cases s with
  | nil => simp [pySplit]
  | cons c cs =>
    simp only [pySplit]
    cases pySplit sep cs with
    | nil => simp
    | cons p ps => by_cases hc : c = sep <;> simp [hc]

theorem pySplit_not_mem (sep : Char) (s : List Char) (h : sep ∉ s) :
    pySplit sep s = [s] := by
  induction s with
  | nil => simp [pySplit]
  | cons c cs ih =>
    have hc : ¬c = sep := by rintro rfl; exact h (List.mem_cons_self _ _)
    have hcs : sep ∉ cs := fun hm => h (List.mem_cons_of_mem _ hm)
    simp only [pySplit, ih hcs]
    simp [hc]

theorem pySplit_mem (sep : Char) (s : List Char) (h : sep ∈ s) :
    ∃ p q qs, pySplit sep s = p :: q :: qs := by
  induction s with
  | nil => cases h
  | cons c cs ih =>
    by_cases hc : c = sep
    · cases hps : pySplit sep cs with
      | nil => exact absurd hps (pySplit_ne_nil sep cs)
      | cons p ps => exact ⟨[], p, ps, by simp [pySplit, hps, hc]⟩
    · have hcs : sep ∈ cs := by
        cases List.mem_cons.mp h with
        | inl heq => exact absurd heq.symm hc
        | inr hm => exact hm
      obtain ⟨p, q, qs, hp⟩ := ih hcs
      exact ⟨c :: p, q, qs, by simp [pySplit, hp, hc]⟩

theorem pySplit_headD (sep : Char) (s : List Char) :
    (pySplit sep s).headD [] = takeUntil sep s := by
  induction s with
  | nil => simp [pySplit, takeUntil]
  | cons c cs ih =>
    simp only [pySplit, takeUntil]
    cases h : pySplit sep cs with
    | nil => exact absurd h (pySplit_ne_nil sep cs)
    | cons p ps =>
      rw [h] at ih
      by_cases hc : c = sep
      · simp [hc]
      · simp only [hc, if_false]
        simp at ih
        simp [ih]

theorem pySplit_getLastD (sep : Char) (s : List Char) :
    (pySplit sep s).getLastD [] = lastSeg sep s := by
  induction s with
  | nil => simp [pySplit, lastSeg]
  | cons c cs ih =>
    simp only [pySplit]
    cases h : pySplit sep cs with
    | nil => exact absurd h (pySplit_ne_nil sep cs)
    | cons p ps =>
      rw [h] at ih
      by_cases hc : c = sep
      · simp only [hc, if_true, lastSeg, true_or]
        simpa using ih
      · simp only [hc, if_false]
        cases ps with
        | nil =>
          have hninf : sep ∉ cs := by
            intro hmem
            obtain ⟨a, b, bs, hab⟩ := pySplit_mem sep cs hmem
            rw [h] at hab
            cases hab
          have hp : p = cs := by
            have h2 := pySplit_not_mem sep cs hninf
            rw [h] at h2
            exact (List.cons.injEq _ _ _ _ ▸ h2).1
          simp [lastSeg, hc, hninf, hp]
        | cons q qs =>
          have hmem : sep ∈ cs := by
            by_contra hn
            have h2 := pySplit_not_mem sep cs hn
            rw [h] at h2
            cases h2
          simp only [lastSeg, hc, hmem, or_true, if_true]
          rw [List.getLastD_cons] at ih ⊢
          rw [← ih]
          simp only [List.getLastD_eq_getLast?]
          rw [List.getLast?_eq_getLast (q :: qs) (by simp)]
          simp

/-- Floor characterisation of natural division: `a / b` is the greatest
natural with `a / b * b ≤ a`. -/
theorem div_floor_spec (a b : Nat) (hb : 0 < b) :
    a / b * b ≤ a ∧ a < (a / b + 1) * b := by
  refine ⟨Nat.div_mul_le_self a b, ?_⟩
  calc a = b * (a / b) + a % b := (Nat.div_add_mod a b).symm
    _ < b * (a / b) + b := Nat.add_lt_add_left (Nat.mod_lt a hb) _
    _ = (a / b + 1) * b := by ring

/-! ## Helper lemmas on the store and the pipeline -/

theorem is_file_registered_eq_false (db : DB) (fp : String)
    (h : ∀ r ∈ db.graphs_children, r.original ≠ fp) :
    is_file_registered db false fp = false := by
  simp only [is_file_registered, Bool.false_eq_true, if_false]
  rw [List.find?_eq_none.mpr]
  · rfl
  · intro r hr
    simpa using h r hr

theorem is_file_registered_eq_true (db : DB) (fp : String) (r : ChildRow)
    (hr : r ∈ db.graphs_children) (ho : r.original = fp) :
    is_file_registered db false fp = true := by
  simp only [is_file_registered, Bool.false_eq_true, if_false]
  rw [Option.isSome_iff_exists] at *
  have : (db.graphs_children.find? (fun x => x.original = fp)).isSome := by
    rw [List.find?_isSome]
    exact ⟨r, hr, by simp [ho]⟩
  simpa [Option.isSome_iff_exists] using this

/-- `preview` on a successful decode and render, with a healthy dedup
query finding no existing row: the preview file is written and a new
`graphs_children` row is inserted. -/
theorem preview_success_fresh (dec : DecodeEnv) (pixel_limit : Nat) (st : St)
    (arch folder_path folder_destiny : String) (graph_id : Nat) (b : Bool) (img : Img)
    (hdec : decodeStage dec arch = (b, Except.ok img))
    (hrender : dec.renderFail (previewOutputPath folder_destiny arch folder_path) = none)
    (hreg : ∀ r ∈ st.db.graphs_children, r.original ≠ arch) :
    preview dec pixel_limit false st arch folder_path folder_destiny graph_id =
      { st with
        db := { st.db with
                graphs_children := st.db.graphs_children ++
                  [⟨st.nextId, graph_id,
                    some (previewOutputPath folder_destiny arch folder_path), arch,
                    dec.sizeMb arch, some (previewName arch folder_path)⟩] }
        fsWrites := st.fsWrites ++
          [(previewOutputPath folder_destiny arch folder_path,
            renderedImage b pixel_limit img)]
        nextId := st.nextId + 1 } := by
  simp only [preview, hdec, hrender]
  rw [is_file_registered_eq_false _ _ hreg]
  simp [save_to_database]

/-- `preview` on a successful decode and render, with a healthy dedup
query finding an existing row: the preview file is rewritten and
nothing else changes. -/
theorem preview_success_registered (dec : DecodeEnv) (pixel_limit : Nat) (st : St)
    (arch folder_path folder_destiny : String) (graph_id : Nat) (b : Bool) (img : Img)
    (r : ChildRow)
    (hdec : decodeStage dec arch = (b, Except.ok img))
    (hrender : dec.renderFail (previewOutputPath folder_destiny arch folder_path) = none)
    (hr : r ∈ st.db.graphs_children) (ho : r.original = arch) :
    preview dec pixel_limit false st arch folder_path folder_destiny graph_id =
      { st with
        fsWrites := st.fsWrites ++
          [(previewOutputPath folder_destiny arch folder_path,
            renderedImage b pixel_limit img)] } := by
  simp only [preview, hdec, hrender]
  rw [is_file_registered_eq_true _ _ r hr ho]
  simp

/-- `preview` on a successful decode and render when the dedup query
raises: the check reports "not registered" and a row is inserted
unconditionally. -/
theorem preview_success_regFail (dec : DecodeEnv) (pixel_limit : Nat) (st : St)
    (arch folder_path folder_destiny : String) (graph_id : Nat) (b : Bool) (img : Img)
    (hdec : decodeStage dec arch = (b, Except.ok img))
    (hrender : dec.renderFail (previewOutputPath folder_destiny arch folder_path) = none) :
    preview dec pixel_limit true st arch folder_path folder_destiny graph_id =
      { st with
        db := { st.db with
                graphs_children := st.db.graphs_children ++
                  [⟨st.nextId, graph_id,
                    some (previewOutputPath folder_destiny arch folder_path), arch,
                    dec.sizeMb arch, some (previewName arch folder_path)⟩] }
        fsWrites := st.fsWrites ++
          [(previewOutputPath folder_destiny arch folder_path,
            renderedImage b pixel_limit img)]
        nextId := st.nextId + 1 } := by
  simp only [preview, hdec, hrender, is_file_registered]
  simp [save_to_database]

/-! ## Claim C5 — output path derivation -/

/-- C5 (counterexample): the output-path derivation claim fails as
stated.  For source file `/w/docs/a.b.png` under watched root `/w` with
destination `previews`, the code produces `previews/a.jpeg` — it
truncates the relative path at its FIRST dot before taking the final
segment — while the spec's recipe (strip the extension, then take the
final path segment) yields base name `a.b` and path
`previews/a.b.jpeg`. -/
theorem claim5_output_path_counterexample :
    previewOutputPath "previews" "/w/docs/a.b.png" "/w" = "previews/a.jpeg" ∧
    specOutputPath "previews" "/w/docs/a.b.png" "/w" = "previews/a.b.jpeg" ∧
    previewOutputPath "previews" "/w/docs/a.b.png" "/w" ≠
      specOutputPath "previews" "/w/docs/a.b.png" "/w" :=
  ⟨by decide, by decide, by decide⟩

/-- C5 (amended): for every processed source file, the preview output
path equals `{destination_folder}/{base_name}.jpeg`, where `base_name`
is obtained by removing the watched-root string from the file path,
replacing backslashes with forward slashes, truncating the result at
its FIRST dot (not merely stripping the final extension), and taking
the final `/`-segment of that prefix. -/
theorem claim5_output_path_amended (folder_destiny arch folder_path : String) :
    previewOutputPath folder_destiny arch folder_path =
      folder_destiny ++ "/" ++
        String.mk (lastSeg '/' (takeUntil '.'
          (replaceBackslash (pyReplace arch.data folder_path.data [])))) ++
      ".jpeg" := by
  simp only [previewOutputPath, previewName, previewBaseChars]
  rw [pySplit_headD, pySplit_getLastD]

/-! ## Claim C3 — resize bound -/

/-- C3 (counterexample): the resize bound does NOT hold on the
complex-TIFF render path.  A decoded 100×2000 raster with pixel limit
1200 has a dimension exceeding the limit, yet `save_image_as_jpeg` (via
`resize_image`, which only inspects the width) writes it unchanged: the
rendered preview's longest edge is 2000, not 1200. -/
theorem claim3_resize_bound_counterexample :
    renderedImage true 1200 ⟨100, 2000, "RGB"⟩ = ⟨100, 2000, "RGB"⟩ ∧
    (1200 < (2000 : Nat)) ∧
    max (renderedImage true 1200 ⟨100, 2000, "RGB"⟩).width
      (renderedImage true 1200 ⟨100, 2000, "RGB"⟩).height ≠ 1200 :=
  ⟨by decide, by decide, by decide⟩

/-- C3 (amended): on the generic render path the claimed bound holds —
whenever either dimension of a (positive-dimension) raster exceeds the
configured maximum, the longest rendered edge equals the maximum
exactly and the shorter edge is the proportionally scaled value floored
(aspect ratio preserved within rounding).  The complex-TIFF path
(`resize_image`) bounds only the WIDTH: a raster with width within the
maximum is written unchanged even when its height exceeds the maximum;
when the width exceeds the maximum the width becomes the maximum and
the height scales proportionally (floored). -/
theorem claim3_resize_bound_amended (w h maxd : Nat) (m : String)
    (hw : 0 < w) (hh : 0 < h) :
    (maxd < w ∨ maxd < h →
      max (previewResize ⟨w, h, m⟩ maxd).width (previewResize ⟨w, h, m⟩ maxd).height
          = maxd ∧
      min (previewResize ⟨w, h, m⟩ maxd).width (previewResize ⟨w, h, m⟩ maxd).height
            * max w h ≤ min w h * maxd ∧
      min w h * maxd <
        (min (previewResize ⟨w, h, m⟩ maxd).width
            (previewResize ⟨w, h, m⟩ maxd).height + 1) * max w h) ∧
    (w ≤ maxd → resize_image ⟨w, h, m⟩ maxd = ⟨w, h, m⟩) ∧
    (maxd < w →
      (resize_image ⟨w, h, m⟩ maxd).width = maxd ∧
      (resize_image ⟨w, h, m⟩ maxd).height * w ≤ h * maxd ∧
      h * maxd < ((resize_image ⟨w, h, m⟩ maxd).height + 1) * w) := by
  refine ⟨?_, ?_, ?_⟩
  · intro hbig
    have hcond : (⟨w, h, m⟩ : Img).width > maxd ∨ (⟨w, h, m⟩ : Img).height > maxd := by
      simpa using hbig
    simp only [previewResize, if_pos hcond]
    rcases le_total h w with hle | hle
    · have hM : max w h = w := max_eq_left hle
      have hm : min w h = h := min_eq_right hle
      simp only [hM, hm]
      have hww : w * maxd / w = maxd := by
        rw [Nat.mul_div_cancel_left maxd hw]
      have hhw : h * maxd / w ≤ maxd := by
        calc h * maxd / w ≤ w * maxd / w :=
              Nat.div_le_div_right (Nat.mul_le_mul_right maxd hle)
          _ = maxd := hww
      obtain ⟨hfl, hfu⟩ := div_floor_spec (h * maxd) w hw
      refine ⟨?_, ?_, ?_⟩
      · simp [hww, max_eq_left hhw]
      · simp [hww, min_eq_right hhw]
        exact hfl
      · simp [hww, min_eq_right hhw]
        exact hfu
    · have hM : max w h = h := max_eq_right hle
      have hm : min w h = w := min_eq_left hle
      simp only [hM, hm]
      have hhh : h * maxd / h = maxd := by
        rw [Nat.mul_div_cancel_left maxd hh]
      have hwh : w * maxd / h ≤ maxd := by
        calc w * maxd / h ≤ h * maxd / h :=
              Nat.div_le_div_right (Nat.mul_le_mul_right maxd hle)
          _ = maxd := hhh
      obtain ⟨hfl, hfu⟩ := div_floor_spec (w * maxd) h hh
      refine ⟨?_, ?_, ?_⟩
      · simp [hhh, max_eq_right hwh]
      · simp [hhh, min_eq_left hwh]
        exact hfl
      · simp [hhh, min_eq_left hwh]
        exact hfu
  · intro hle
    simp [resize_image, hle]
  · intro hlt
    have hnle : ¬(⟨w, h, m⟩ : Img).width ≤ maxd := by simpa using Nat.not_le.mpr hlt
    have hres : resize_image ⟨w, h, m⟩ maxd = ⟨maxd, h * maxd / w, m⟩ := by
      simp [resize_image, hnle]
    obtain ⟨hfl, hfu⟩ := div_floor_spec (h * maxd) w hw
    rw [hres]
    exact ⟨rfl, hfl, hfu⟩

/-- Witness for C3 (amended): the spec's own scenario — a 2000×1000
raster without profile, maximum 800 — rendered on the generic path, and
a 1300×500 raster on the complex path. -/
theorem claim3_resize_bound_amended_witness :
    ((800 < 2000 ∨ 800 < 1000) →
      max (previewResize ⟨2000, 1000, "RGB"⟩ 800).width
          (previewResize ⟨2000, 1000, "RGB"⟩ 800).height = 800 ∧
      min (previewResize ⟨2000, 1000, "RGB"⟩ 800).width
            (previewResize ⟨2000, 1000, "RGB"⟩ 800).height * max 2000 1000
          ≤ min 2000 1000 * 800 ∧
      min 2000 1000 * 800 <
        (min (previewResize ⟨2000, 1000, "RGB"⟩ 800).width
            (previewResize ⟨2000, 1000, "RGB"⟩ 800).height + 1) * max 2000 1000) ∧
    (2000 ≤ 800 → resize_image ⟨2000, 1000, "RGB"⟩ 800 = ⟨2000, 1000, "RGB"⟩) ∧
    (800 < 2000 →
      (resize_image ⟨2000, 1000, "RGB"⟩ 800).width = 800 ∧
      (resize_image ⟨2000, 1000, "RGB"⟩ 800).height * 2000 ≤ 1000 * 800 ∧
      1000 * 800 < ((resize_image ⟨2000, 1000, "RGB"⟩ 800).height + 1) * 2000) :=
  claim3_resize_bound_amended 2000 1000 800 "RGB" (by decide) (by decide)

/-! ## Claim C1 — dedup guard -/

/-- C1 (confirmed): processing the same source file a second time does
not add a second `PreviewArtifact` (`graphs_children`) row.  Starting
from a state with no row for the path, the first `preview` leaves
exactly one row for it; the second `preview` — the registration check
running after the successful render and before the metadata insert —
leaves the store and the identifier counter untouched while the preview
file on disk is written again. -/
theorem claim1_dedup_guard (dec : DecodeEnv) (pixel_limit : Nat) (st0 : St)
    (arch folder_path folder_destiny : String) (graph_id : Nat) (b : Bool) (img : Img)
    (hdec : decodeStage dec arch = (b, Except.ok img))
    (hrender : dec.renderFail (previewOutputPath folder_destiny arch folder_path) = none)
    (hnew : ∀ r ∈ st0.db.graphs_children, r.original ≠ arch) :
    ((preview dec pixel_limit false st0 arch folder_path folder_destiny
        graph_id).db.graphs_children.filter (fun r => r.original = arch)).length = 1 ∧
    (preview dec pixel_limit false
        (preview dec pixel_limit false st0 arch folder_path folder_destiny graph_id)
        arch folder_path folder_destiny graph_id).db =
      (preview dec pixel_limit false st0 arch folder_path folder_destiny graph_id).db ∧
    (preview dec pixel_limit false
        (preview dec pixel_limit false st0 arch folder_path folder_destiny graph_id)
        arch folder_path folder_destiny graph_id).nextId =
      (preview dec pixel_limit false st0 arch folder_path folder_destiny graph_id).nextId ∧
    (preview dec pixel_limit false
        (preview dec pixel_limit false st0 arch folder_path folder_destiny graph_id)
        arch folder_path folder_destiny graph_id).fsWrites =
      (preview dec pixel_limit false st0 arch folder_path folder_destiny
          graph_id).fsWrites ++
        [(previewOutputPath folder_destiny arch folder_path,
          renderedImage b pixel_limit img)] := by
  have h1 := preview_success_fresh dec pixel_limit st0 arch folder_path folder_destiny
    graph_id b img hdec hrender hnew
  have hfilter : st0.db.graphs_children.filter (fun r => r.original = arch) = [] := by
    rw [List.filter_eq_nil_iff]
    intro r hr
    simpa using hnew r hr
  have hmem : (⟨st0.nextId, graph_id,
      some (previewOutputPath folder_destiny arch folder_path), arch,
      dec.sizeMb arch, some (previewName arch folder_path)⟩ : ChildRow) ∈
      (preview dec pixel_limit false st0 arch folder_path folder_destiny
        graph_id).db.graphs_children := by
    rw [h1]
    simp
  have h2 := preview_success_registered dec pixel_limit
    (preview dec pixel_limit false st0 arch folder_path folder_destiny graph_id)
    arch folder_path folder_destiny graph_id b img _ hdec hrender hmem rfl
  refine ⟨?_, ?_, ?_, ?_⟩
  · rw [h1]
    simp [List.filter_append, hfilter]
  · rw [h2]
  · rw [h2]
  · rw [h2]

/-- Witness for C1 at the sample environment: the file `/w/a.png`
decoded generically, starting from the empty state. -/
theorem claim1_dedup_guard_witness :
    ((preview sampleEnv 1200 false emptySt "/w/a.png" "/w" "previews"
        7).db.graphs_children.filter (fun r => r.original = "/w/a.png")).length = 1 ∧
    (preview sampleEnv 1200 false
        (preview sampleEnv 1200 false emptySt "/w/a.png" "/w" "previews" 7)
        "/w/a.png" "/w" "previews" 7).db =
      (preview sampleEnv 1200 false emptySt "/w/a.png" "/w" "previews" 7).db ∧
    (preview sampleEnv 1200 false
        (preview sampleEnv 1200 false emptySt "/w/a.png" "/w" "previews" 7)
        "/w/a.png" "/w" "previews" 7).nextId =
      (preview sampleEnv 1200 false emptySt "/w/a.png" "/w" "previews" 7).nextId ∧
    (preview sampleEnv 1200 false
        (preview sampleEnv 1200 false emptySt "/w/a.png" "/w" "previews" 7)
        "/w/a.png" "/w" "previews" 7).fsWrites =
      (preview sampleEnv 1200 false emptySt "/w/a.png" "/w" "previews" 7).fsWrites ++
        [(previewOutputPath "previews" "/w/a.png" "/w",
          renderedImage false 1200 ⟨400, 300, "RGBA"⟩)] :=
  claim1_dedup_guard sampleEnv 1200 emptySt "/w/a.png" "/w" "previews" 7 false
    ⟨400, 300, "RGBA"⟩ rfl rfl (by decide)

/-! ## Claim C10 — dedup check under store failure -/

/-- C10 (confirmed): when the dedup query inside `is_file_registered`
raises, the function returns `false`, so the pipeline proceeds to
insert a new metadata row instead of skipping — the count of rows for
the original path grows by one even if a row already exists, weakening
the at-most-one-row guarantee under database errors. -/
theorem claim10_dedup_check_store_failure (dbAny : DB) (p : String)
    (dec : DecodeEnv) (pixel_limit : Nat) (st0 : St)
    (arch folder_path folder_destiny : String) (graph_id : Nat) (b : Bool) (img : Img)
    (hdec : decodeStage dec arch = (b, Except.ok img))
    (hrender : dec.renderFail (previewOutputPath folder_destiny arch folder_path) = none) :
    is_file_registered dbAny true p = false ∧
    ((preview dec pixel_limit true st0 arch folder_path folder_destiny
        graph_id).db.graphs_children.filter (fun r => r.original = arch)).length =
      (st0.db.graphs_children.filter (fun r => r.original = arch)).length + 1 := by
  refine ⟨rfl, ?_⟩
  rw [preview_success_regFail dec pixel_limit st0 arch folder_path folder_destiny
    graph_id b img hdec hrender]
  simp [List.filter_append]

/-- Witness for C10: a state that already holds a row for `/w/a.png`
ends the failing-check pipeline with two rows for it. -/
theorem claim10_dedup_check_store_failure_witness :
    is_file_registered ⟨[], [⟨5, 7, some "previews/a.jpeg", "/w/a.png", some "1.00",
        some "a"⟩], []⟩ true "/w/a.png" = false ∧
    ((preview sampleEnv 1200 true
        ⟨⟨[], [⟨5, 7, some "previews/a.jpeg", "/w/a.png", some "1.00", some "a"⟩], []⟩,
          [], 6⟩
        "/w/a.png" "/w" "previews" 7).db.graphs_children.filter
        (fun r => r.original = "/w/a.png")).length =
      ((⟨⟨[], [⟨5, 7, some "previews/a.jpeg", "/w/a.png", some "1.00", some "a"⟩], []⟩,
          [], 6⟩ : St).db.graphs_children.filter
        (fun r => r.original = "/w/a.png")).length + 1 :=
  claim10_dedup_check_store_failure
    ⟨[], [⟨5, 7, some "previews/a.jpeg", "/w/a.png", some "1.00", some "a"⟩], []⟩
    "/w/a.png" sampleEnv 1200
    ⟨⟨[], [⟨5, 7, some "previews/a.jpeg", "/w/a.png", some "1.00", some "a"⟩], []⟩, [], 6⟩
    "/w/a.png" "/w" "previews" 7 false ⟨400, 300, "RGBA"⟩ rfl rfl

/-! ## Claim C8 — failure recording -/

/-- C8 (counterexample): the failure-recording claim fails as stated.
Decoding `/w/bad.png` raises with message `boom`; the handler writes
exactly one `logs_script` entry whose text is `str(e)` alone — the
file path is NOT part of the entry — and no `graphs_children` row nor
preview file is produced. -/
theorem claim8_failure_log_counterexample :
    (preview sampleEnv 1200 false emptySt "/w/bad.png" "/w" "previews"
        7).db.logs_script = [(0, "boom")] ∧
    (preview sampleEnv 1200 false emptySt "/w/bad.png" "/w" "previews"
        7).db.graphs_children = [] ∧
    (preview sampleEnv 1200 false emptySt "/w/bad.png" "/w" "previews"
        7).fsWrites = [] ∧
    ¬ "/w/bad.png".data <:+: "boom".data :=
  ⟨by decide, by decide, by decide, by decide⟩

/-- C8 (amended): when any stage of processing a single file fails
(decode or render), an `ErrorLogEntry` is written containing the
failure reason — the exception text alone, without the file path — and
no `PreviewArtifact` metadata row is written for that file: the state
is unchanged apart from the log entry and the identifier counter. -/
theorem claim8_failure_recording_amended (dec : DecodeEnv) (pixel_limit : Nat)
    (regFail : Bool) (st : St) (arch folder_path folder_destiny : String)
    (graph_id : Nat) (e : String)
    (hfail : (decodeStage dec arch).2 = Except.error e ∨
      (∃ img, (decodeStage dec arch).2 = Except.ok img ∧
        dec.renderFail (previewOutputPath folder_destiny arch folder_path) = some e)) :
    preview dec pixel_limit regFail st arch folder_path folder_destiny graph_id =
      { st with
        db := { st.db with logs_script := st.db.logs_script ++ [(st.nextId, e)] }
        nextId := st.nextId + 1 } := by
  rcases hds : decodeStage dec arch with ⟨bb, res⟩
  cases res with
  | error e2 =>
      have he : e2 = e := by
        rcases hfail with herr | ⟨img, hok, _⟩
        · rw [hds] at herr
          simpa using herr
        · rw [hds] at hok
          simp at hok
      subst he
      simp only [preview, hds]
      simp [save_to_database]
  | ok img2 =>
      have hrf : dec.renderFail (previewOutputPath folder_destiny arch folder_path) =
          some e := by
        rcases hfail with herr | ⟨img, hok, hrf⟩
        · rw [hds] at herr
          simp at herr
        · exact hrf
      simp only [preview, hds, hrf]
      simp [save_to_database]

/-- Witness for C8 (amended) at the failing decode of `/w/bad.png`. -/
theorem claim8_failure_recording_amended_witness :
    preview sampleEnv 1200 false emptySt "/w/bad.png" "/w" "previews" 7 =
      { emptySt with
        db := { emptySt.db with
                logs_script := emptySt.db.logs_script ++ [(emptySt.nextId, "boom")] }
        nextId := emptySt.nextId + 1 } :=
  claim8_failure_recording_amended sampleEnv 1200 false emptySt "/w/bad.png" "/w"
    "previews" 7 "boom" (Or.inl rfl)

/-! ## Claim C2 — idempotent directory registration -/

/-- C2 (confirmed): calling `ensure_directory_registered` twice with the
same absolute directory path (healthy store, no pre-existing row for
the normalised relative path) returns the same identifier both times
and leaves exactly one `graphs` row for that relative path; the second
call finds the existing row and performs no insert. -/
theorem claim2_directory_registration_idempotent (pe : PathEnv) (st0 : St)
    (full_dir_path : String)
    (hnew : ∀ r ∈ st0.db.graphs, r.path ≠ pe.relToRepo (pe.norm full_dir_path)) :
    (ensure_directory_registered pe false false
        (ensure_directory_registered pe false false st0 full_dir_path).2
        full_dir_path).1 =
      (ensure_directory_registered pe false false st0 full_dir_path).1 ∧
    ((ensure_directory_registered pe false false
        (ensure_directory_registered pe false false st0 full_dir_path).2
        full_dir_path).2.db.graphs.filter
        (fun r => r.path = pe.relToRepo (pe.norm full_dir_path))).length = 1 ∧
    (ensure_directory_registered pe false false
        (ensure_directory_registered pe false false st0 full_dir_path).2
        full_dir_path).2.db.graphs =
      (ensure_directory_registered pe false false st0 full_dir_path).2.db.graphs := by
  have hfind0 : st0.db.graphs.find?
      (fun r => r.path = pe.relToRepo (pe.norm full_dir_path)) = none := by
    rw [List.find?_eq_none]
    intro r hr
    simpa using hnew r hr
  have h1 : ensure_directory_registered pe false false st0 full_dir_path =
      (st0.nextId,
        { st0 with
          db := { st0.db with
                  graphs := st0.db.graphs ++
                    [⟨st0.nextId, pe.base (pe.norm full_dir_path),
                      pe.relToRepo (pe.norm full_dir_path)⟩] }
          nextId := st0.nextId + 1 }) := by
    simp only [ensure_directory_registered, get_directory_id, Bool.false_eq_true,
      if_false, hfind0]
    simp [insert_new_directory]
  have hfind1 : (st0.db.graphs ++
      [(⟨st0.nextId, pe.base (pe.norm full_dir_path),
        pe.relToRepo (pe.norm full_dir_path)⟩ : DirRow)]).find?
      (fun r => r.path = pe.relToRepo (pe.norm full_dir_path)) =
      some (⟨st0.nextId, pe.base (pe.norm full_dir_path),
        pe.relToRepo (pe.norm full_dir_path)⟩ : DirRow) := by
    rw [List.find?_append, hfind0]
    simp
  have hfilter : st0.db.graphs.filter
      (fun r => r.path = pe.relToRepo (pe.norm full_dir_path)) = [] := by
    rw [List.filter_eq_nil_iff]
    intro r hr
    simpa using hnew r hr
  have h2 : ensure_directory_registered pe false false
      (ensure_directory_registered pe false false st0 full_dir_path).2 full_dir_path =
      (st0.nextId, (ensure_directory_registered pe false false st0 full_dir_path).2) := by
    rw [h1]
    simp only [ensure_directory_registered, get_directory_id, Bool.false_eq_true,
      if_false]
    rw [hfind1]
    simp
  refine ⟨?_, ?_, ?_⟩
  · rw [h2, h1]
  · rw [h2, h1]
    simp [List.filter_append, hfilter]
  · rw [h2]

/-- Witness for C2: registering `docs` twice from the empty state. -/
theorem claim2_directory_registration_idempotent_witness :
    (ensure_directory_registered samplePathEnv false false
        (ensure_directory_registered samplePathEnv false false emptySt "docs").2
        "docs").1 =
      (ensure_directory_registered samplePathEnv false false emptySt "docs").1 ∧
    ((ensure_directory_registered samplePathEnv false false
        (ensure_directory_registered samplePathEnv false false emptySt "docs").2
        "docs").2.db.graphs.filter
        (fun r => r.path = samplePathEnv.relToRepo (samplePathEnv.norm "docs"))).length
      = 1 ∧
    (ensure_directory_registered samplePathEnv false false
        (ensure_directory_registered samplePathEnv false false emptySt "docs").2
        "docs").2.db.graphs =
      (ensure_directory_registered samplePathEnv false false emptySt
        "docs").2.db.graphs :=
  claim2_directory_registration_idempotent samplePathEnv emptySt "docs" (by decide)

/-! ## Claim C6 — decode strategy selection -/

theorem convert_tiff_to_image_uint8 (a : TiffArr) :
    (convert_tiff_to_image a).dtypeUint8 = true := by
  unfold convert_tiff_to_image
  by_cases h1 : a.ndim = 3 ∧ a.channels > 3 <;> by_cases h2 : a.dtypeUint8 <;>
    simp [h1, h2]

theorem convert_tiff_to_image_channels (a : TiffArr) :
    (convert_tiff_to_image a).channels =
      if a.ndim = 3 ∧ 3 < a.channels then 3 else a.channels := by
  unfold convert_tiff_to_image
  by_cases h1 : a.ndim = 3 ∧ a.channels > 3 <;> by_cases h2 : a.dtypeUint8 <;>
    simp [h1, h2]

/-- C6 (confirmed): the decode strategy is selected by lowercased file
extension — `psb` routes to the layered-document decoder; `tiff`/`tif`
routes through the ICC-profile check to the profile-aware path or to
the array-based reader (which truncates to the first three channels
when more are present and coerces pixel data to 8-bit); every other
extension routes to the generic decoder — and `preview`'s decode stage
dispatches exactly along this classification. -/
theorem claim6_decode_strategy_selection (dec : DecodeEnv) (arch : String)
    (f : PilInfo) (a : TiffArr) :
    (chooseStrategy arch f = DecodeStrategy.psbDoc ↔ lowerExt arch = "psb") ∧
    (chooseStrategy arch f = DecodeStrategy.complexTiff ↔
      (lowerExt arch = "tiff" ∨ lowerExt arch = "tif") ∧ is_complex_tiff f = true) ∧
    (chooseStrategy arch f = DecodeStrategy.simpleTiff ↔
      (lowerExt arch = "tiff" ∨ lowerExt arch = "tif") ∧ is_complex_tiff f = false) ∧
    (chooseStrategy arch f = DecodeStrategy.generic ↔
      lowerExt arch ≠ "psb" ∧ lowerExt arch ≠ "tiff" ∧ lowerExt arch ≠ "tif") ∧
    (is_complex_tiff f = true ↔ f.openOk = true ∧ f.hasIccProfile = true) ∧
    (convert_tiff_to_image a).dtypeUint8 = true ∧
    (convert_tiff_to_image a).channels =
      (if a.ndim = 3 ∧ 3 < a.channels then 3 else a.channels) ∧
    decodeStage dec arch =
      (match chooseStrategy arch (dec.pil arch) with
        | DecodeStrategy.psbDoc => (false, dec.psb arch)
        | DecodeStrategy.complexTiff => (true, dec.cmyk arch)
        | DecodeStrategy.simpleTiff =>
            (false, (dec.tiffArr arch).map
              (fun t => tiffArrImg (convert_tiff_to_image t)))
        | DecodeStrategy.generic => (false, dec.generic arch)) := by
  refine ⟨?_, ?_, ?_, ?_, ?_, convert_tiff_to_image_uint8 a,
    convert_tiff_to_image_channels a, ?_⟩
  · unfold chooseStrategy
    by_cases h1 : lowerExt arch = "psb"
    · simp [h1]
    · by_cases h2 : lowerExt arch = "tiff" ∨ lowerExt arch = "tif"
      · by_cases h3 : is_complex_tiff f = true <;> simp [h1, h2, h3]
      · simp [h1, h2]
  · unfold chooseStrategy
    by_cases h1 : lowerExt arch = "psb"
    · simp [h1]
    · by_cases h2 : lowerExt arch = "tiff" ∨ lowerExt arch = "tif"
      · by_cases h3 : is_complex_tiff f = true <;> simp [h1, h2, h3]
      · simp [h1, h2]
  · unfold chooseStrategy
    by_cases h1 : lowerExt arch = "psb"
    · simp [h1]
    · by_cases h2 : lowerExt arch = "tiff" ∨ lowerExt arch = "tif"
      · by_cases h3 : is_complex_tiff f = true <;> simp [h1, h2, h3]
      · simp [h1, h2]
  · unfold chooseStrategy
    by_cases h1 : lowerExt arch = "psb"
    · simp [h1]
    · by_cases h2 : lowerExt arch = "tiff" ∨ lowerExt arch = "tif"
      · by_cases h3 : is_complex_tiff f = true <;> simp [h1, h2, h3] <;>
          (rcases h2 with h2 | h2 <;> simp [h2])
      · have h2' := not_or.mp h2
        simp [h1, h2'.1, h2'.2]
  · simp [is_complex_tiff, Bool.and_eq_true]
  · unfold decodeStage chooseStrategy
    by_cases h1 : lowerExt arch = "psb"
    · simp [h1]
    · by_cases h2 : lowerExt arch = "tiff" ∨ lowerExt arch = "tif"
      · by_cases h3 : is_complex_tiff (dec.pil arch) = true <;> simp [h1, h2, h3]
      · simp [h1, h2]

/-- Witness for C6 at the sample environment with a TIFF path, an
ICC-carrying `PilInfo`, and a 5-channel 16-bit array. -/
theorem claim6_decode_strategy_selection_witness :
    (chooseStrategy "box.TIF" ⟨true, true⟩ = DecodeStrategy.psbDoc ↔
      lowerExt "box.TIF" = "psb") ∧
    (chooseStrategy "box.TIF" ⟨true, true⟩ = DecodeStrategy.complexTiff ↔
      (lowerExt "box.TIF" = "tiff" ∨ lowerExt "box.TIF" = "tif") ∧
        is_complex_tiff ⟨true, true⟩ = true) ∧
    (chooseStrategy "box.TIF" ⟨true, true⟩ = DecodeStrategy.simpleTiff ↔
      (lowerExt "box.TIF" = "tiff" ∨ lowerExt "box.TIF" = "tif") ∧
        is_complex_tiff ⟨true, true⟩ = false) ∧
    (chooseStrategy "box.TIF" ⟨true, true⟩ = DecodeStrategy.generic ↔
      lowerExt "box.TIF" ≠ "psb" ∧ lowerExt "box.TIF" ≠ "tiff" ∧
        lowerExt "box.TIF" ≠ "tif") ∧
    (is_complex_tiff ⟨true, true⟩ = true ↔
      (⟨true, true⟩ : PilInfo).openOk = true ∧
        (⟨true, true⟩ : PilInfo).hasIccProfile = true) ∧
    (convert_tiff_to_image ⟨3, 10, 20, 5, false⟩).dtypeUint8 = true ∧
    (convert_tiff_to_image ⟨3, 10, 20, 5, false⟩).channels =
      (if (⟨3, 10, 20, 5, false⟩ : TiffArr).ndim = 3 ∧
          3 < (⟨3, 10, 20, 5, false⟩ : TiffArr).channels then 3
        else (⟨3, 10, 20, 5, false⟩ : TiffArr).channels) ∧
    decodeStage sampleEnv "box.TIF" =
      (match chooseStrategy "box.TIF" (sampleEnv.pil "box.TIF") with
        | DecodeStrategy.psbDoc => (false, sampleEnv.psb "box.TIF")
        | DecodeStrategy.complexTiff => (true, sampleEnv.cmyk "box.TIF")
        | DecodeStrategy.simpleTiff =>
            (false, (sampleEnv.tiffArr "box.TIF").map
              (fun t => tiffArrImg (convert_tiff_to_image t)))
        | DecodeStrategy.generic => (false, sampleEnv.generic "box.TIF")) :=
  claim6_decode_strategy_selection sampleEnv "box.TIF" ⟨true, true⟩
    ⟨3, 10, 20, 5, false⟩

/-! ## Claim C7 — non-RGB normalisation -/

theorem resize_image_mode (image : Img) (mw : Nat) :
    (resize_image image mw).mode = image.mode := by
  unfold resize_image
  split <;> rfl

theorem previewResize_mode (img : Img) (md : Nat) :
    (previewResize img md).mode = img.mode := by
  unfold previewResize
  split <;> rfl

/-- C7 (confirmed): every raster written by `preview` on the generic
path carries mode RGB exactly when the decoded mode was one of CMYK,
RGBA, LA or P (otherwise the mode is unchanged), the conversion
happening before resizing and encoding; the complex-TIFF path performs
its own profile-aware conversion upstream and skips this generic step
(the rendered mode equals the decoded one). -/
theorem claim7_nonrgb_normalisation (dec : DecodeEnv) (pixel_limit : Nat)
    (regFail : Bool) (st : St) (arch folder_path folder_destiny : String)
    (graph_id : Nat) (b : Bool) (img : Img)
    (hdec : decodeStage dec arch = (b, Except.ok img))
    (hrender : dec.renderFail (previewOutputPath folder_destiny arch folder_path) = none) :
    (preview dec pixel_limit regFail st arch folder_path folder_destiny
        graph_id).fsWrites =
      st.fsWrites ++ [(previewOutputPath folder_destiny arch folder_path,
        renderedImage b pixel_limit img)] ∧
    (renderedImage false pixel_limit img).mode =
      (if img.mode ∈ convertModes then "RGB" else img.mode) ∧
    (renderedImage true pixel_limit img).mode = img.mode := by
  refine ⟨?_, ?_, ?_⟩
  · simp only [preview, hdec, hrender]
    split
    · rfl
    · simp [save_to_database]
  · unfold renderedImage
    by_cases hm : img.mode ∈ convertModes <;> simp [hm, previewResize_mode]
  · simp [renderedImage, save_image_as_jpeg, resize_image_mode]

/-- Witness for C7: the RGBA decode of `/w/a.png` under the sample
environment is written converted to RGB. -/
theorem claim7_nonrgb_normalisation_witness :
    (preview sampleEnv 1200 false emptySt "/w/a.png" "/w" "previews" 7).fsWrites =
      emptySt.fsWrites ++ [(previewOutputPath "previews" "/w/a.png" "/w",
        renderedImage false 1200 ⟨400, 300, "RGBA"⟩)] ∧
    (renderedImage false 1200 ⟨400, 300, "RGBA"⟩).mode =
      (if (⟨400, 300, "RGBA"⟩ : Img).mode ∈ convertModes then "RGB"
        else (⟨400, 300, "RGBA"⟩ : Img).mode) ∧
    (renderedImage true 1200 ⟨400, 300, "RGBA"⟩).mode =
      (⟨400, 300, "RGBA"⟩ : Img).mode :=
  claim7_nonrgb_normalisation sampleEnv 1200 false emptySt "/w/a.png" "/w"
    "previews" 7 false ⟨400, 300, "RGBA"⟩ rfl rfl

/-! ## Claim C9 — error isolation -/

theorem get_directory_id_children (st : St) (g : Bool) (rel : String) :
    (get_directory_id st g rel).2.db.graphs_children = st.db.graphs_children := by
  unfold get_directory_id log_error_to_db
  by_cases hg : g = true <;> simp [hg]

theorem insert_new_directory_children (st : St) (i : Bool) (dir_id : Nat)
    (dir_name rel : String) :
    (insert_new_directory st i dir_id dir_name rel).db.graphs_children =
      st.db.graphs_children := by
  unfold insert_new_directory log_error_to_db
  by_cases hi : i = true <;> simp [hi]

theorem ensure_children_eq (pe : PathEnv) (g i : Bool) (st : St) (full : String) :
    (ensure_directory_registered pe g i st full).2.db.graphs_children =
      st.db.graphs_children := by
  simp only [ensure_directory_registered]
  rcases hq : get_directory_id st g (pe.relToRepo (pe.norm full)) with ⟨o, st1⟩
  have h1 : st1.db.graphs_children = st.db.graphs_children := by
    have h := get_directory_id_children st g (pe.relToRepo (pe.norm full))
    rw [hq] at h
    exact h
  cases o with
  | some d =>
      exact h1
  | none =>
      show (insert_new_directory
          { db := st1.db, fsWrites := st1.fsWrites, nextId := st1.nextId + 1 } i
          st1.nextId (pe.base (pe.norm full))
          (pe.relToRepo (pe.norm full))).db.graphs_children = st.db.graphs_children
      rw [insert_new_directory_children]
      exact h1

theorem get_directory_id_fsWrites (st : St) (g : Bool) (rel : String) :
    (get_directory_id st g rel).2.fsWrites = st.fsWrites := by
  unfold get_directory_id log_error_to_db
  by_cases hg : g = true <;> simp [hg]

theorem insert_new_directory_fsWrites (st : St) (i : Bool) (dir_id : Nat)
    (dir_name rel : String) :
    (insert_new_directory st i dir_id dir_name rel).fsWrites = st.fsWrites := by
  unfold insert_new_directory log_error_to_db
  by_cases hi : i = true <;> simp [hi]

theorem ensure_fsWrites_eq (pe : PathEnv) (g i : Bool) (st : St) (full : String) :
    (ensure_directory_registered pe g i st full).2.fsWrites = st.fsWrites := by
  simp only [ensure_directory_registered]
  rcases hq : get_directory_id st g (pe.relToRepo (pe.norm full)) with ⟨o, st1⟩
  have h1 : st1.fsWrites = st.fsWrites := by
    have h := get_directory_id_fsWrites st g (pe.relToRepo (pe.norm full))
    rw [hq] at h
    exact h
  cases o with
  | some d =>
      exact h1
  | none =>
      show (insert_new_directory
          { db := st1.db, fsWrites := st1.fsWrites, nextId := st1.nextId + 1 } i
          st1.nextId (pe.base (pe.norm full))
          (pe.relToRepo (pe.norm full))).fsWrites = st.fsWrites
      rw [insert_new_directory_fsWrites]
      exact h1

/-- The `graphs_children` table after `preview` is either unchanged or
extended by exactly the row for the processed path. -/
theorem preview_children_shape (dec : DecodeEnv) (pl : Nat) (rf : Bool) (st : St)
    (arch fp fd : String) (gid : Nat) :
    (preview dec pl rf st arch fp fd gid).db.graphs_children =
        st.db.graphs_children ∨
    (preview dec pl rf st arch fp fd gid).db.graphs_children =
        st.db.graphs_children ++
          [⟨st.nextId, gid, some (previewOutputPath fd arch fp), arch,
            dec.sizeMb arch, some (previewName arch fp)⟩] := by
  unfold preview
  rcases hds : decodeStage dec arch with ⟨b, res⟩
  cases res with
  | error e =>
      left
      simp [save_to_database]
  | ok img =>
      cases hrf : dec.renderFail (previewOutputPath fd arch fp) with
      | some e =>
          left
          simp [hrf, save_to_database]
      | none =>
          by_cases hreg : is_file_registered
              ({ st with fsWrites := st.fsWrites ++
                [(previewOutputPath fd arch fp, renderedImage b pl img)] }).db rf arch
          · left
            simp [hrf, hreg]
          · right
            simp [hrf, hreg, save_to_database]

/-- `fsWrites` after `preview` is either unchanged or extended by a
single write at the derived output path. -/
theorem preview_fsWrites_shape (dec : DecodeEnv) (pl : Nat) (rf : Bool) (st : St)
    (arch fp fd : String) (gid : Nat) :
    (preview dec pl rf st arch fp fd gid).fsWrites = st.fsWrites ∨
    ∃ im : Img, (preview dec pl rf st arch fp fd gid).fsWrites =
        st.fsWrites ++ [(previewOutputPath fd arch fp, im)] := by
  unfold preview
  rcases hds : decodeStage dec arch with ⟨b, res⟩
  cases res with
  | error e =>
      left
      simp [save_to_database]
  | ok img =>
      cases hrf : dec.renderFail (previewOutputPath fd arch fp) with
      | some e =>
          left
          simp [hrf, save_to_database]
      | none =>
          right
          refine ⟨renderedImage b pl img, ?_⟩
          by_cases hreg : is_file_registered
              ({ st with fsWrites := st.fsWrites ++
                [(previewOutputPath fd arch fp, renderedImage b pl img)] }).db rf arch
          · simp [hrf, hreg]
          · simp [hrf, hreg, save_to_database]

/-- After a successful decode and render with a healthy dedup check, a
row for the processed path is present — whether it was already there or
has just been inserted. -/
theorem preview_registers (dec : DecodeEnv) (pl : Nat) (st : St)
    (arch fp fd : String) (gid : Nat) (b : Bool) (img : Img)
    (hdec : decodeStage dec arch = (b, Except.ok img))
    (hrender : dec.renderFail (previewOutputPath fd arch fp) = none) :
    ∃ r ∈ (preview dec pl false st arch fp fd gid).db.graphs_children,
      r.original = arch := by
  simp only [preview, hdec, hrender]
  by_cases hreg : is_file_registered
      ({ st with fsWrites := st.fsWrites ++
        [(previewOutputPath fd arch fp, renderedImage b pl img)] }).db false arch
  · rw [if_pos hreg]
    unfold is_file_registered at hreg
    simp only [Bool.false_eq_true, if_false] at hreg
    rw [Option.isSome_iff_exists] at hreg
    obtain ⟨r, hr⟩ := hreg
    refine ⟨r, List.mem_of_find?_eq_some hr, ?_⟩
    have := List.find?_some hr
    simpa using this
  · rw [if_neg hreg]
    refine ⟨⟨st.nextId, gid, some (previewOutputPath fd arch fp), arch,
      dec.sizeMb arch, some (previewName arch fp)⟩, ?_, rfl⟩
    simp [save_to_database]

/-- The per-file monitor step either leaves `graphs_children` unchanged
or appends one row for the processed file. -/
theorem monitorStep_children_shape (dec : DecodeEnv) (pe : PathEnv) (pl : Nat)
    (rf : Bool) (dest fp : String) (s : St) (file_path : String) :
    (monitorStep dec pe pl rf dest fp s file_path).db.graphs_children =
        s.db.graphs_children ∨
    ∃ r : ChildRow, r.original = file_path ∧
      (monitorStep dec pe pl rf dest fp s file_path).db.graphs_children =
        s.db.graphs_children ++ [r] := by
  unfold monitorStep
  have hens := ensure_children_eq pe false false s (pe.norm (pe.dirOf file_path))
  rcases preview_children_shape dec pl rf
      (ensure_directory_registered pe false false s (pe.norm (pe.dirOf file_path))).2
      file_path fp (passDestination pe dest file_path)
      (ensure_directory_registered pe false false s (pe.norm (pe.dirOf file_path))).1
    with h | h
  · left
    rw [h, hens]
  · right
    exact ⟨_, rfl, by rw [h, hens]⟩

/-- Rows only accumulate: any row present before a pass suffix is still
present after it. -/
theorem monitorProcess_mem_mono (dec : DecodeEnv) (pe : PathEnv) (pl : Nat)
    (rf : Bool) (dest fp : String) (files : List String) :
    ∀ (s : St) (r : ChildRow), r ∈ s.db.graphs_children →
      r ∈ (monitorProcess dec pe pl rf dest fp s files).db.graphs_children := by
  induction files with
  | nil =>
      intro s r hr
      exact hr
  | cons g gs ih =>
      intro s r hr
      have hstep : r ∈ (monitorStep dec pe pl rf dest fp s g).db.graphs_children := by
        rcases monitorStep_children_shape dec pe pl rf dest fp s g with h | ⟨row, _, h⟩
        · rw [h]; exact hr
        · rw [h]; exact List.mem_append_left _ hr
      exact ih (monitorStep dec pe pl rf dest fp s g) r hstep

/-- C9 (confirmed): error isolation.  In a pass over any list of
changed files, a file whose decode succeeds and whose render does not
fail ends the pass with a metadata row present for it, with NO
assumption about the other files of the pass — in particular decode
failures elsewhere in the batch (which `preview`'s handler absorbs, so
the loop never terminates early) cannot prevent it from being
processed, rendered and recorded. -/
theorem claim9_error_isolation (dec : DecodeEnv) (pe : PathEnv) (pl : Nat)
    (dest folder_path : String) (st : St) (files : List String) (f : String)
    (hf : f ∈ files) (b : Bool) (img : Img)
    (hdec : decodeStage dec f = (b, Except.ok img))
    (hrender : dec.renderFail
      (previewOutputPath (passDestination pe dest f) f folder_path) = none) :
    ∃ r ∈ (monitorProcess dec pe pl false dest folder_path st
        files).db.graphs_children, r.original = f := by
  induction files generalizing st with
  | nil => cases hf
  | cons g gs ih =>
      rcases List.mem_cons.mp hf with rfl | hmem
      · obtain ⟨r, hr, ho⟩ := preview_registers dec pl
          (ensure_directory_registered pe false false st
            (pe.norm (pe.dirOf f))).2 f folder_path (passDestination pe dest f)
          (ensure_directory_registered pe false false st
            (pe.norm (pe.dirOf f))).1 b img hdec hrender
        exact ⟨r, monitorProcess_mem_mono dec pe pl false dest folder_path gs _ r hr, ho⟩
      · exact ih (monitorStep dec pe pl false dest folder_path st g) hmem

/-- Witness for C9: a pass over `["/w/bad.png", "/w/a.png"]` — the
first file's decode raises — still records `/w/a.png`. -/
theorem claim9_error_isolation_witness :
    ∃ r ∈ (monitorProcess sampleEnv samplePathEnv 1200 false "previews" "/w"
        emptySt ["/w/bad.png", "/w/a.png"]).db.graphs_children,
      r.original = "/w/a.png" :=
  claim9_error_isolation sampleEnv samplePathEnv 1200 "previews" "/w" emptySt
    ["/w/bad.png", "/w/a.png"] "/w/a.png" (by simp) false ⟨400, 300, "RGBA"⟩
    rfl rfl

/-! ## Claim C4 — hidden-file exclusion -/

theorem setAssoc_mem (d : List (String × Option Nat)) (k : String) (v : Option Nat)
    (x : String × Option Nat) (hx : x ∈ setAssoc d k v) : x ∈ d ∨ x.1 = k := by
  unfold setAssoc at hx
  by_cases hc : d.any (fun kv => kv.1 = k) = true
  · rw [if_pos hc] at hx
    obtain ⟨y, hy, hxy⟩ := List.mem_map.mp hx
    by_cases hyk : y.1 = k
    · right
      rw [← hxy]
      simp [hyk]
    · left
      rw [← hxy]
      simp only [hyk, if_false]
      exact hy
  · rw [if_neg hc] at hx
    rcases List.mem_append.mp hx with h | h
    · exact Or.inl h
    · right
      simp only [List.mem_singleton] at h
      rw [h]

theorem monitorBaseline_mem_aux (walk : List WalkFile) :
    ∀ (acc : List (String × Option Nat)) (x : String × Option Nat),
      x ∈ walk.foldl
        (fun d e => if hiddenFile e.2.1 then d else setAssoc d (ospJoin e.1 e.2.1) e.2.2)
        acc →
      x ∈ acc ∨ ∃ e ∈ walk, hiddenFile e.2.1 = false ∧ x.1 = ospJoin e.1 e.2.1 := by
  induction walk with
  | nil =>
      intro acc x hx
      exact Or.inl hx
  | cons w ws ih =>
      intro acc x hx
      rw [List.foldl_cons] at hx
      rcases ih _ x hx with hacc | ⟨e, he, hh, hp⟩
      · by_cases hw : hiddenFile w.2.1 = true
        · rw [if_pos hw] at hacc
          exact Or.inl hacc
        · rw [if_neg hw] at hacc
          rcases setAssoc_mem _ _ _ _ hacc with h | h
          · exact Or.inl h
          · exact Or.inr ⟨w, List.mem_cons_self _ _, by simpa using hw, h⟩
      · exact Or.inr ⟨e, List.mem_cons_of_mem _ he, hh, hp⟩

theorem monitorUpdated_mem_aux (files_dict : List (String × Option Nat))
    (walk : List WalkFile) :
    ∀ (acc : List (String × Option Nat)) (x : String × Option Nat),
      x ∈ walk.foldl
        (fun u e =>
          if hiddenFile e.2.1 then u
          else
            match lookupAssoc files_dict (ospJoin e.1 e.2.1) with
            | none => setAssoc u (ospJoin e.1 e.2.1) e.2.2
            | some prev =>
                if prev ≠ e.2.2 then setAssoc u (ospJoin e.1 e.2.1) e.2.2 else u)
        acc →
      x ∈ acc ∨ ∃ e ∈ walk, hiddenFile e.2.1 = false ∧ x.1 = ospJoin e.1 e.2.1 := by
  induction walk with
  | nil =>
      intro acc x hx
      exact Or.inl hx
  | cons w ws ih =>
      intro acc x hx
      rw [List.foldl_cons] at hx
      rcases ih _ x hx with hacc | ⟨e, he, hh, hp⟩
      · by_cases hw : hiddenFile w.2.1 = true
        · rw [if_pos hw] at hacc
          exact Or.inl hacc
        · rw [if_neg hw] at hacc
          have hstep : x ∈ setAssoc acc (ospJoin w.1 w.2.1) w.2.2 ∨ x ∈ acc := by
            cases hl : lookupAssoc files_dict (ospJoin w.1 w.2.1) with
            | none =>
                rw [hl] at hacc
                exact Or.inl hacc
            | some prev =>
                rw [hl] at hacc
                by_cases hne : prev ≠ w.2.2
                · simp only [hne, if_true] at hacc
                  rw [if_pos hne] at hacc
                  exact Or.inl hacc
                · simp only [hne, if_false] at hacc
                  exact Or.inr hacc
          rcases hstep with h | h
          · rcases setAssoc_mem _ _ _ _ h with h2 | h2
            · exact Or.inl h2
            · exact Or.inr ⟨w, List.mem_cons_self _ _, by simpa using hw, h2⟩
          · exact Or.inl h
      · exact Or.inr ⟨e, List.mem_cons_of_mem _ he, hh, hp⟩

/-- Every row a pass adds belongs to one of the files of the pass. -/
theorem monitorProcess_children_origin (dec : DecodeEnv) (pe : PathEnv) (pl : Nat)
    (rf : Bool) (dest fp : String) (files : List String) :
    ∀ (st : St) (r : ChildRow),
      r ∈ (monitorProcess dec pe pl rf dest fp st files).db.graphs_children →
      r ∈ st.db.graphs_children ∨ r.original ∈ files := by
  induction files with
  | nil =>
      intro st r hr
      exact Or.inl hr
  | cons g gs ih =>
      intro st r hr
      rcases ih (monitorStep dec pe pl rf dest fp st g) r hr with h | h
      · rcases monitorStep_children_shape dec pe pl rf dest fp st g with hs | ⟨row, ho, hs⟩
        · rw [hs] at h
          exact Or.inl h
        · rw [hs] at h
          rcases List.mem_append.mp h with h1 | h1
          · exact Or.inl h1
          · right
            simp only [List.mem_singleton] at h1
            rw [h1, ho]
            exact List.mem_cons_self _ _
      · exact Or.inr (List.mem_cons_of_mem _ h)

/-- The monitor step either writes nothing or writes the preview of the
processed file at its derived output path. -/
theorem monitorStep_fsWrites_shape (dec : DecodeEnv) (pe : PathEnv) (pl : Nat)
    (rf : Bool) (dest fp : String) (s : St) (file_path : String) :
    (monitorStep dec pe pl rf dest fp s file_path).fsWrites = s.fsWrites ∨
    ∃ im : Img, (monitorStep dec pe pl rf dest fp s file_path).fsWrites =
      s.fsWrites ++
        [(previewOutputPath (passDestination pe dest file_path) file_path fp, im)] := by
  unfold monitorStep
  have hens := ensure_fsWrites_eq pe false false s (pe.norm (pe.dirOf file_path))
  rcases preview_fsWrites_shape dec pl rf
      (ensure_directory_registered pe false false s (pe.norm (pe.dirOf file_path))).2
      file_path fp (passDestination pe dest file_path)
      (ensure_directory_registered pe false false s (pe.norm (pe.dirOf file_path))).1
    with h | ⟨im, h⟩
  · left
    rw [h, hens]
  · right
    exact ⟨im, by rw [h, hens]⟩

/-- Every preview file a pass writes is the derived output of one of
the files of the pass. -/
theorem monitorProcess_fsWrites_origin (dec : DecodeEnv) (pe : PathEnv) (pl : Nat)
    (rf : Bool) (dest fp : String) (files : List String) :
    ∀ (st : St) (x : String × Img),
      x ∈ (monitorProcess dec pe pl rf dest fp st files).fsWrites →
      x ∈ st.fsWrites ∨ ∃ f ∈ files,
        x.1 = previewOutputPath (passDestination pe dest f) f fp := by
  induction files with
  | nil =>
      intro st x hx
      exact Or.inl hx
  | cons g gs ih =>
      intro st x hx
      rcases ih (monitorStep dec pe pl rf dest fp st g) x hx with h | ⟨f, hf, hout⟩
      · rcases monitorStep_fsWrites_shape dec pe pl rf dest fp st g with hs | ⟨im, hs⟩
        · rw [hs] at h
          exact Or.inl h
        · rw [hs] at h
          rcases List.mem_append.mp h with h1 | h1
          · exact Or.inl h1
          · right
            simp only [List.mem_singleton] at h1
            exact ⟨g, List.mem_cons_self _ _, by rw [h1]⟩
      · exact Or.inr ⟨f, List.mem_cons_of_mem _ hf, hout⟩

/-- C4 (confirmed): hidden-file exclusion.  Every entry of the baseline
dictionary and every change event of a scan pass comes from a walk file
whose name does not start with `'.'` (hidden files are filtered before
either is recorded), and consequently every metadata row and every
preview file produced by processing the pass's events belongs to a
non-hidden walk file — a file whose name begins with `'.'` is never
emitted and never produces a preview artifact or metadata row. -/
theorem claim4_hidden_file_exclusion (files_dict : List (String × Option Nat))
    (walk : List WalkFile) (dec : DecodeEnv) (pe : PathEnv) (pl : Nat) (rf : Bool)
    (dest folder_path : String) (st : St) :
    (∀ x ∈ monitorBaseline walk,
      ∃ e ∈ walk, hiddenFile e.2.1 = false ∧ x.1 = ospJoin e.1 e.2.1) ∧
    (∀ x ∈ monitorUpdated files_dict walk,
      ∃ e ∈ walk, hiddenFile e.2.1 = false ∧ x.1 = ospJoin e.1 e.2.1) ∧
    (∀ r ∈ (monitorProcess dec pe pl rf dest folder_path st
        ((monitorUpdated files_dict walk).map Prod.fst)).db.graphs_children,
      r ∈ st.db.graphs_children ∨
        ∃ e ∈ walk, hiddenFile e.2.1 = false ∧ r.original = ospJoin e.1 e.2.1) ∧
    (∀ x ∈ (monitorProcess dec pe pl rf dest folder_path st
        ((monitorUpdated files_dict walk).map Prod.fst)).fsWrites,
      x ∈ st.fsWrites ∨
        ∃ e ∈ walk, hiddenFile e.2.1 = false ∧
          x.1 = previewOutputPath (passDestination pe dest (ospJoin e.1 e.2.1))
            (ospJoin e.1 e.2.1) folder_path) := by
  have hupd : ∀ x ∈ monitorUpdated files_dict walk,
      ∃ e ∈ walk, hiddenFile e.2.1 = false ∧ x.1 = ospJoin e.1 e.2.1 := by
    intro x hx
    rcases monitorUpdated_mem_aux files_dict walk [] x hx with h | h
    · cases h
    · exact h
  refine ⟨?_, hupd, ?_, ?_⟩
  · intro x hx
    rcases monitorBaseline_mem_aux walk [] x hx with h | h
    · cases h
    · exact h
  · intro r hr
    rcases monitorProcess_children_origin dec pe pl rf dest folder_path
        ((monitorUpdated files_dict walk).map Prod.fst) st r hr with h | h
    · exact Or.inl h
    · right
      obtain ⟨kv, hkv, hfst⟩ := List.mem_map.mp h
      obtain ⟨e, he, hh, hp⟩ := hupd kv hkv
      exact ⟨e, he, hh, by rw [← hfst, hp]⟩
  · intro x hx
    rcases monitorProcess_fsWrites_origin dec pe pl rf dest folder_path
        ((monitorUpdated files_dict walk).map Prod.fst) st x hx with h | ⟨f, hf, hout⟩
    · exact Or.inl h
    · right
      obtain ⟨kv, hkv, hfst⟩ := List.mem_map.mp hf
      obtain ⟨e, he, hh, hp⟩ := hupd kv hkv
      refine ⟨e, he, hh, ?_⟩
      rw [hout, ← hfst, hp]

/-- Witness for C4 at a two-file walk (`a.png` and the hidden
`.hidden.png` in directory `docs`). -/
theorem claim4_hidden_file_exclusion_witness :
    (∀ x ∈ monitorBaseline [("docs", "a.png", some 1), ("docs", ".hidden.png", some 2)],
      ∃ e ∈ [(("docs", "a.png", some 1) : WalkFile), ("docs", ".hidden.png", some 2)],
        hiddenFile e.2.1 = false ∧ x.1 = ospJoin e.1 e.2.1) ∧
    (∀ x ∈ monitorUpdated []
        [("docs", "a.png", some 1), ("docs", ".hidden.png", some 2)],
      ∃ e ∈ [(("docs", "a.png", some 1) : WalkFile), ("docs", ".hidden.png", some 2)],
        hiddenFile e.2.1 = false ∧ x.1 = ospJoin e.1 e.2.1) ∧
    (∀ r ∈ (monitorProcess sampleEnv samplePathEnv 1200 false "previews" "docs"
        emptySt
        ((monitorUpdated []
          [("docs", "a.png", some 1), ("docs", ".hidden.png", some 2)]).map
            Prod.fst)).db.graphs_children,
      r ∈ emptySt.db.graphs_children ∨
        ∃ e ∈ [(("docs", "a.png", some 1) : WalkFile), ("docs", ".hidden.png", some 2)],
          hiddenFile e.2.1 = false ∧ r.original = ospJoin e.1 e.2.1) ∧
    (∀ x ∈ (monitorProcess sampleEnv samplePathEnv 1200 false "previews" "docs"
        emptySt
        ((monitorUpdated []
          [("docs", "a.png", some 1), ("docs", ".hidden.png", some 2)]).map
            Prod.fst)).fsWrites,
      x ∈ emptySt.fsWrites ∨
        ∃ e ∈ [(("docs", "a.png", some 1) : WalkFile), ("docs", ".hidden.png", some 2)],
          hiddenFile e.2.1 = false ∧
            x.1 = previewOutputPath
              (passDestination samplePathEnv "previews" (ospJoin e.1 e.2.1))
              (ospJoin e.1 e.2.1) "docs") :=
  claim4_hidden_file_exclusion []
    [("docs", "a.png", some 1), ("docs", ".hidden.png", some 2)]
    sampleEnv samplePathEnv 1200 false "previews" "docs" emptySt

end FolderMonitoring
